import Mathlib

/-!
Shallow embedding of `bqMigrate.js` (class `BQMigration`, the migration engine of
advename/bq-migrate) and verification of its specification claims.

Modelling conventions:
* Each async method becomes a function `BQState → Except JsErr α × BQState`:
  the method either resolves (`.ok`) or rejects (`.error`), and the state-change
  performed up to the failure point persists.
* The BigQuery dataset is modelled by `BQState`: the ledger table
  (`schema_migrations`) as a list of rows, the lock table
  (`schema_migrations_lock`) as a list of rows (normally exactly one), table
  existence flags, the directory listing, the behaviour of the migration script
  modules, and the current time `now` (an integer count of seconds, standing
  for `CURRENT_DATETIME` rendered in the configured timezone).
* The module file of `bqMigrate.js` binds `fs` and `path` at top level but has
  no binding for `bigquery`; evaluating the bare identifier `bigquery` (used in
  `createMigrationLockTable` and in `runMigrations`'s MAX(batch) query, instead
  of `this.bigquery`) therefore throws a `ReferenceError`.  Identifier lookup is
  made explicit with `lookupBinding` over a module scope: `srcScope` is the
  scope of the source file, `patchedScope` adds a `bigquery` binding and models
  the behaviour the surrounding code and documentation intend.
-/

namespace BQMigrate

/-- One row of the `schema_migrations` ledger table: columns
`name:STRING, batch:INT64, migration_time:DATETIME`. -/
structure LedgerRow where
  name : String
  batch : Int
  migration_time : Int
deriving DecidableEq, Repr

/-- The row of the `schema_migrations_lock` table: columns
`is_locked:BOOL, locked_at:DATETIME`. -/
structure LockRow where
  is_locked : Bool
  locked_at : Int
deriving DecidableEq, Repr

/-- The semantic content of one migration script module: its filename and
whether its `up(bigquery, datasetId)` / `down(bigquery, datasetId)` calls
complete (resolve) or fail (reject) when invoked. -/
structure Script where
  file : String
  upOk : Bool
  downOk : Bool
deriving DecidableEq, Repr

/-- Configuration fields of a `BQMigration` instance that the engine logic
reads (constructor lines 31-43 of the source). -/
structure Config where
  migrationLockExpirationTime : Int
  timezone : String
deriving DecidableEq, Repr

/-- The mutable world an invocation runs against. `upsRun` / `downsRun` are
traces of the script files whose `up` / `down` procedure was invoked, in
invocation order (the external warehouse effects of script execution). -/
structure BQState where
  ledgerTableExists : Bool
  lockTableExists : Bool
  ledger : List LedgerRow
  lockRows : List LockRow
  dirFiles : List String
  scripts : List Script
  now : Int
  upsRun : List String
  downsRun : List String
deriving DecidableEq, Repr

/-- Errors a method can reject with. -/
inductive JsErr where
  /-- Evaluating an unbound identifier, e.g. the bare `bigquery` of
  `createMigrationLockTable` (source line 89). -/
  | referenceError (id : String)
  /-- Thrown as `new Error("Failed to lock ...")` by `lockMigration`. -/
  | lockFailed
  /-- Thrown as `new Error("Failed to unlock ...")` by `unlockMigration`. -/
  | unlockFailed
  /-- Raised when `require(filePath)` failed to load a migration module. -/
  | moduleNotFound (file : String)
  /-- A migration script's `up` or `down` rejected. -/
  | scriptFailed (file : String)
deriving DecidableEq, Repr

deriving instance DecidableEq for Except

/-- Result of one async method: resolved value or rejection, together with the
world state after the call. -/
abbrev Res (α : Type) := Except JsErr α × BQState

/-- Sequencing of awaited steps: a rejection short-circuits, as an uncaught
thrown error does inside an async function body. -/
def andThen {α β : Type} (x : Res α) (f : α → BQState → Res β) : Res β :=
  match x with
  | (.error e, st) => (.error e, st)
  | (.ok a, st) => f a st

/-- Top-level bindings of the `bqMigrate.js` module file: `fs`, `path` (and the
class itself). There is no top-level `bigquery` binding. -/
def moduleBindings : List String := ["fs", "path", "BQMigration"]

/-- Evaluating an identifier against a module scope: an unbound identifier
throws `ReferenceError`. -/
def lookupBinding (scope : List String) (id : String) : Except JsErr Unit :=
  if scope.contains id then .ok () else .error (.referenceError id)

/-- The scope of the source file as written. -/
def srcScope : List String := moduleBindings

/-- The scope with a `bigquery` binding added: models the intended code in
which the stray bare `bigquery` references resolve to the client
(equivalently, read `this.bigquery`). -/
def patchedScope : List String := "bigquery" :: moduleBindings

/-- JS string comparison `a < b` on UTF-16 code units, on the character lists
of the strings (for the code points appearing in filenames this coincides with
comparing `Char.toNat`). -/
def strLtChars : List Char → List Char → Bool
  | [], [] => false
  | [], _ :: _ => true
  | _ :: _, [] => false
  | a :: as, b :: bs =>
    if a.toNat < b.toNat then true
    else if b.toNat < a.toNat then false
    else strLtChars as bs

/-- The comparison under which JS `Array.prototype.sort()` (default comparator)
orders strings ascending: `a` comes no later than `b`. -/
def strLeJs (a b : String) : Bool := !(strLtChars b.data a.data)

/-- Insert a string into an already sorted list (helper of `sortJs`). -/
def insertSorted (f : String) : List String → List String
  | [] => [f]
  | g :: rest => if strLeJs f g then f :: g :: rest else g :: insertSorted f rest

/-- Model of JS `array.sort()` on strings: the unique `strLeJs`-ascending
ordering of the list (the order is total and antisymmetric, so every correct
sort produces this list). -/
def sortJs : List String → List String
  | [] => []
  | f :: rest => insertSorted f (sortJs rest)

/-- JS `file.endsWith(suffix)`. -/
def strEndsWith (f suffix : String) : Bool :=
  List.isSuffixOf suffix.data f.data

/-- JS regex test `/^\d{3}_/.test(file)`: the first four characters are three
decimal digits followed by an underscore. -/
def startsWithThreeDigitsUnderscore (f : String) : Bool :=
  match f.data with
  | a :: b :: c :: u :: _ => a.isDigit && b.isDigit && c.isDigit && (u == '_')
  | _ => false

/-- The filter predicate of `getMigrationFiles` (source lines 203-207):
`/^\d{3}_/.test(file) && (file.endsWith(".js") || file.endsWith(".ts"))`. -/
def isValidMigrationFile (f : String) : Bool :=
  startsWithThreeDigitsUnderscore f &&
    (strEndsWith f ".js" || strEndsWith f ".ts")

/-- Characters strictly before the last `'.'` of the list, or `none` when
there is no `'.'` (helper of `parseName`). -/
def beforeLastDot : List Char → Option (List Char)
  | [] => none
  | c :: rest =>
    match beforeLastDot rest with
    | some tail => some (c :: tail)
    | none => if c == '.' then some [] else none

/-- Node's `path.parse(file).name`: the filename with its last extension
removed; a file whose only dot is the leading character keeps its full name. -/
def parseName (f : String) : String :=
  match beforeLastDot f.data with
  | none => f
  | some [] => f
  | some pre => ⟨pre⟩

/-- Method `createMigrationTable` (source lines 56-80): check whether the ledger
table exists (via `this.bigquery`, a bound reference) and create it with the
ledger schema when absent. -/
def createMigrationTable (st : BQState) : Res Unit :=
  if st.ledgerTableExists then (.ok (), st)
  else (.ok (), { st with ledgerTableExists := true })

/-- Method `createMigrationLockTable` (source lines 87-116).  The existence check
(line 89) and the seed INSERT (line 109) dereference the bare identifier
`bigquery`, while the CREATE TABLE (line 102) uses `this.bigquery`; in the
source scope the very first awaited expression therefore throws
`ReferenceError` before anything is checked, created or seeded. -/
def createMigrationLockTable (scope : List String) (st : BQState) : Res Unit :=
  match lookupBinding scope "bigquery" with
  | .error e => (.error e, st)
  | .ok _ =>
    if st.lockTableExists then (.ok (), st)
    else
      let st1 := { st with lockTableExists := true }
      match lookupBinding scope "bigquery" with
      | .error e => (.error e, st1)
      | .ok _ =>
        (.ok (), { st1 with lockRows := st1.lockRows ++ [⟨false, st1.now⟩] })

/-- The WHERE clause of `lockMigration`'s conditional UPDATE (source lines
131-137): `is_locked = FALSE OR DATETIME_DIFF(now, locked_at, SECOND) >=
@migrationLockExpirationTime`. -/
def lockRowMatches (cfg : Config) (now : Int) (r : LockRow) : Bool :=
  !r.is_locked || decide (cfg.migrationLockExpirationTime ≤ now - r.locked_at)

/-- The affected-row count reported for `lockMigration`'s UPDATE
(`jobMetadata.statistics.numDmlAffectedRows`, source line 147): the number of
lock-table rows matching the WHERE clause. -/
def lockAffectedRows (cfg : Config) (st : BQState) : Nat :=
  (st.lockRows.filter (lockRowMatches cfg st.now)).length

/-- Method `lockMigration` (source lines 123-157): one conditional UPDATE setting
`is_locked = TRUE, locked_at = now` on every row matching
`lockRowMatches`; throws when the reported affected-row count is zero. -/
def lockMigration (cfg : Config) (st : BQState) : Res Unit :=
  let affectedRows := lockAffectedRows cfg st
  let st1 := { st with
    lockRows := st.lockRows.map fun r =>
      if lockRowMatches cfg st.now r then ⟨true, st.now⟩ else r }
  (if affectedRows = 0 then .error .lockFailed else .ok (), st1)

/-- The affected-row count of `unlockMigration`'s UPDATE (source line 179):
the number of rows with `is_locked = TRUE`. -/
def unlockAffectedRows (st : BQState) : Nat :=
  (st.lockRows.filter (fun r => r.is_locked)).length

/-- The row update performed by `unlockMigration`'s UPDATE (source lines
171-173): `SET is_locked = FALSE WHERE is_locked = TRUE`. -/
def unlockRowsUpdate (rows : List LockRow) : List LockRow :=
  rows.map fun r => if r.is_locked then ⟨false, r.locked_at⟩ else r

/-- Method `unlockMigration` (source lines 167-189): unconditional unlock UPDATE;
throws when the reported affected-row count is zero. -/
def unlockMigration (st : BQState) : Res Unit :=
  let affectedRows := unlockAffectedRows st
  let st1 := { st with lockRows := unlockRowsUpdate st.lockRows }
  (if affectedRows = 0 then .error .unlockFailed else .ok (), st1)

/-- Method `getMigrationFiles` (source lines 197-212): read the directory, keep the
entries passing `isValidMigrationFile`, return them sorted with JS
`array.sort()`. -/
def getMigrationFiles (st : BQState) : Res (List String) :=
  (.ok (sortJs (st.dirFiles.filter isValidMigrationFile)), st)

/-- Method `getAppliedMigrations(batch = null)` (source lines 227-244): SELECT name
FROM the ledger, with a `WHERE batch = ...` clause appended only when `batch`
is truthy (so `null` — and also `0` — mean no filter). -/
def getAppliedMigrations (st : BQState) (batch : Option Int) :
    Res (List String) :=
  let rows :=
    match batch with
    | some b => if b == 0 then st.ledger else st.ledger.filter (·.batch == b)
    | none => st.ledger
  (.ok (rows.map (·.name)), st)

/-- JS `Number(x) || 0` applied to the result of `SELECT MAX(batch)`: `NULL`
(empty ledger) and `0` both give `0`, any other number passes through. -/
def jsNumberOrZero (x : Option Int) : Int :=
  match x with
  | none => 0
  | some m => if m == 0 then 0 else m

/-- The `currentBatch` computed from a ledger snapshot
(`Number(batchRows[0].max_batch) || 0`, source lines 292 and 340). -/
def currentBatchOf (st : BQState) : Int :=
  jsNumberOrZero (st.ledger.map (·.batch)).max?

/-- Lookup of `require(filePath)` resolved against the modelled directory content. -/
def findScript (st : BQState) (file : String) : Option Script :=
  st.scripts.find? (fun s => s.file == file)

/-- Step `await migrationFile.up(this.bigquery, this.datasetId)` (source line 278):
records the invocation in the `upsRun` trace, then resolves or rejects
according to the script's behaviour. -/
def runScriptUp (st : BQState) (file : String) : Res Unit :=
  match findScript st file with
  | none => (.error (.moduleNotFound file), st)
  | some s =>
    let st1 := { st with upsRun := st.upsRun ++ [file] }
    (if s.upOk then .ok () else .error (.scriptFailed file), st1)

/-- Step `await migrationFile.down(this.bigquery, this.datasetId)` (source line
354). -/
def runScriptDown (st : BQState) (file : String) : Res Unit :=
  match findScript st file with
  | none => (.error (.moduleNotFound file), st)
  | some s =>
    let st1 := { st with downsRun := st.downsRun ++ [file] }
    (if s.downOk then .ok () else .error (.scriptFailed file), st1)

/-- The `for (const file of migrationFiles)` loop of `runMigrations` (source
lines 272-282): run `up` of each file whose stem is not among
`appliedMigrations`, accumulating executed stems in `ranMigrations`. -/
def runPendingLoop (st : BQState) (applied : List String) :
    List String → List String → Res (List String)
  | [], ran => (.ok ran, st)
  | file :: rest, ran =>
    let fileName := parseName file
    if applied.contains fileName then runPendingLoop st applied rest ran
    else
      match runScriptUp st file with
      | (.error e, st1) => (.error e, st1)
      | (.ok _, st1) => runPendingLoop st1 applied rest (ran ++ [fileName])

/-- The bookkeeping step of `runMigrations` (source lines 284-308): skip when
nothing ran; otherwise read MAX(batch) — through the bare identifier
`bigquery` (line 289), a `ReferenceError` in the source scope — and bulk-insert
one row per executed stem, all stamped `currentBatch + 1` and the current
timestamp, in one INSERT statement. -/
def recordRanMigrations (scope : List String) (st : BQState)
    (ran : List String) : Res Unit :=
  if ran.length = 0 then (.ok (), st)
  else
    match lookupBinding scope "bigquery" with
    | .error e => (.error e, st)
    | .ok _ =>
      let currentBatch := currentBatchOf st
      let newRows : List LedgerRow :=
        ran.map fun fileName => ⟨fileName, currentBatch + 1, st.now⟩
      (.ok (), { st with ledger := st.ledger ++ newRows })

/-- Steps 2-4 of the `try` block of `runMigrations` (source lines 264-308):
lock, read applied names and catalog, run the pending loop, record. -/
def runLockedPhase (scope : List String) (cfg : Config) (st : BQState) :
    Res Unit :=
  andThen (lockMigration cfg st) fun _ st3 =>
  andThen (getAppliedMigrations st3 none) fun applied st4 =>
  andThen (getMigrationFiles st4) fun files st5 =>
  andThen (runPendingLoop st5 applied files []) fun ran st6 =>
  recordRanMigrations scope st6 ran

/-- The `try` block of `runMigrations` (source lines 258-308): ensure the
two tables, then the locked phase. -/
def runMigrationsTry (scope : List String) (cfg : Config) (st : BQState) :
    Res Unit :=
  andThen (createMigrationTable st) fun _ st1 =>
  andThen (createMigrationLockTable scope st1) fun _ st2 =>
  runLockedPhase scope cfg st2

/-- Method `runMigrations` (source lines 257-315): `try { ... } catch (error) {
console.error(...) } finally { await this.unlockMigration() }` — an error from
the try block is caught and only logged, then the finally block awaits
`unlockMigration`, whose own rejection (being outside any catch) rejects the
promise returned to the caller. -/
def runMigrations (scope : List String) (cfg : Config) (st : BQState) :
    Res Unit :=
  let tryResult := runMigrationsTry scope cfg st
  let unlockResult := unlockMigration tryResult.2
  (match unlockResult.1 with
   | .error e => .error e
   | .ok _ => .ok (), unlockResult.2)

/-- The `for (const file of migrationFiles)` loop of `rollbackMigrations`
(source lines 348-358): run `down` of each file whose stem is among the
latest-batch applied names, accumulating executed stems. -/
def rollbackLoop (st : BQState) (latest : List String) :
    List String → List String → Res (List String)
  | [], rolled => (.ok rolled, st)
  | file :: rest, rolled =>
    let fileName := parseName file
    if latest.contains fileName then
      match runScriptDown st file with
      | (.error e, st1) => (.error e, st1)
      | (.ok _, st1) => rollbackLoop st1 latest rest (rolled ++ [fileName])
    else rollbackLoop st latest rest rolled

/-- The bookkeeping step of `rollbackMigrations` (source lines 360-376): skip
when nothing rolled back; otherwise one DELETE of the ledger rows whose name
is among the executed stems and whose batch equals the current batch. -/
def deleteRolledBack (st : BQState) (rolled : List String)
    (currentBatch : Int) : Res Unit :=
  if rolled.length = 0 then (.ok (), st)
  else
    (.ok (), { st with
      ledger := st.ledger.filter fun r =>
        !(rolled.contains r.name && r.batch == currentBatch) })

/-- The `try` block of `rollbackMigrations` (source lines 332-376); here every
query goes through `this.bigquery` (no unbound identifier). -/
def rollbackMigrationsTry (cfg : Config) (st : BQState) : Res Unit :=
  andThen (lockMigration cfg st) fun _ st1 =>
  andThen (getMigrationFiles st1) fun files st2 =>
  let currentBatch := currentBatchOf st2
  andThen (getAppliedMigrations st2 (some currentBatch)) fun latest st3 =>
  andThen (rollbackLoop st3 latest files []) fun rolled st4 =>
  deleteRolledBack st4 rolled currentBatch

/-- Method `rollbackMigrations` (source lines 331-382): same
`try`/`catch`-log/`finally`-unlock shape as `runMigrations`. -/
def rollbackMigrations (cfg : Config) (st : BQState) : Res Unit :=
  let tryResult := rollbackMigrationsTry cfg st
  let unlockResult := unlockMigration tryResult.2
  (match unlockResult.1 with
   | .error e => .error e
   | .ok _ => .ok (), unlockResult.2)

/-- The ledger names an unfiltered `getAppliedMigrations()` returns. -/
def appliedNamesOf (st : BQState) : List String := st.ledger.map (·.name)

/-- The catalog as `getMigrationFiles` produces it. -/
def sortedMigrationFiles (st : BQState) : List String :=
  sortJs (st.dirFiles.filter isValidMigrationFile)

/-- The pending set of a run: catalog files whose stem is not among the
applied names, in catalog order. -/
def pendingFilesOf (st : BQState) : List String :=
  (sortedMigrationFiles st).filter fun f =>
    !(appliedNamesOf st).contains (parseName f)

/-- The names `getAppliedMigrations(currentBatch)` returns. -/
def latestBatchNames (st : BQState) : List String :=
  (if currentBatchOf st == 0 then st.ledger
   else st.ledger.filter (·.batch == currentBatchOf st)).map (·.name)

/-- The rollback target set: catalog files whose stem is among the
current-batch applied names, in catalog order. -/
def rollbackTargets (st : BQState) : List String :=
  (sortedMigrationFiles st).filter fun f =>
    (latestBatchNames st).contains (parseName f)

/-- A configuration with the default lock expiry of 30 seconds. -/
def cfgEx : Config := ⟨30, "Etc/UTC"⟩

/-- Helper: a map that rewrites no element (the UPDATE matched zero rows)
leaves the list unchanged. -/
theorem map_if_const_eq_self {α : Type} (p : α → Bool) (c : α) :
    ∀ l : List α, (∀ x ∈ l, p x = false) →
      (l.map fun x => if p x then c else x) = l
  | [], _ => rfl
  | a :: l, h => by
    have ha := h a (by simp)
    have ih := map_if_const_eq_self p c l (fun x hx => h x (by simp [hx]))
    simp [ha, ih]

/-- The result of `lockMigration` is decided by the affected-row count. -/
theorem lockMigration_fst (cfg : Config) (st : BQState) :
    (lockMigration cfg st).1 =
      if lockAffectedRows cfg st = 0 then .error .lockFailed else .ok () :=
  rfl

/-- The state after `lockMigration`: the conditional UPDATE applied. -/
theorem lockMigration_snd (cfg : Config) (st : BQState) :
    (lockMigration cfg st).2 = { st with
      lockRows := st.lockRows.map fun r =>
        if lockRowMatches cfg st.now r then ⟨true, st.now⟩ else r } :=
  rfl

/-- A failed `lockMigration` leaves the state entirely unchanged. -/
theorem lockMigration_fail_state (cfg : Config) (st : BQState)
    (h : lockAffectedRows cfg st = 0) :
    lockMigration cfg st = (.error .lockFailed, st) := by
  have hnil : st.lockRows.filter (lockRowMatches cfg st.now) = [] :=
    List.length_eq_zero.mp h
  have hall : ∀ r ∈ st.lockRows, lockRowMatches cfg st.now r = false := by
    intro r hr
    have := List.filter_eq_nil_iff.mp hnil r hr
    simpa using this
  have hmap := map_if_const_eq_self (lockRowMatches cfg st.now)
    (⟨true, st.now⟩ : LockRow) st.lockRows hall
  unfold lockMigration
  simp [h, hmap]

/-- The result of `unlockMigration` is decided by the affected-row count. -/
theorem unlockMigration_fst (st : BQState) :
    (unlockMigration st).1 =
      if unlockAffectedRows st = 0 then .error .unlockFailed else .ok () :=
  rfl

/-- The state after `unlockMigration`: the unconditional unlock UPDATE
applied; ledger, catalog and script traces are untouched. -/
theorem unlockMigration_snd (st : BQState) :
    (unlockMigration st).2 =
      { st with lockRows := unlockRowsUpdate st.lockRows } :=
  rfl

/-- Lemma: `unlockMigration` either resolves or rejects with the unlock error. -/
theorem unlockMigration_cases (st : BQState) :
    (unlockMigration st).1 = .ok () ∨
      (unlockMigration st).1 = .error .unlockFailed := by
  rw [unlockMigration_fst]
  by_cases h : unlockAffectedRows st = 0 <;> simp [h]

/-- A successful `runScriptUp` appended the file to the `upsRun` trace and
changed nothing else. -/
theorem runScriptUp_ok_state (st : BQState) (file : String) (a : Unit)
    (st1 : BQState) (h : runScriptUp st file = (.ok a, st1)) :
    st1 = { st with upsRun := st.upsRun ++ [file] } := by
  unfold runScriptUp at h
  cases hf : findScript st file with
  | none => rw [hf] at h; simp at h
  | some s =>
    rw [hf] at h
    by_cases hu : s.upOk = true
    · simp [hu] at h
      exact h.symm
    · simp [hu] at h

/-- A successful `runScriptDown` appended the file to the `downsRun` trace and
changed nothing else. -/
theorem runScriptDown_ok_state (st : BQState) (file : String) (a : Unit)
    (st1 : BQState) (h : runScriptDown st file = (.ok a, st1)) :
    st1 = { st with downsRun := st.downsRun ++ [file] } := by
  unfold runScriptDown at h
  cases hf : findScript st file with
  | none => rw [hf] at h; simp at h
  | some s =>
    rw [hf] at h
    by_cases hd : s.downOk = true
    · simp [hd] at h
      exact h.symm
    · simp [hd] at h

/-- Success of the run loop characterises the executed `up`s and the
collected stems: exactly the not-yet-applied files, in list order. -/
theorem runPendingLoop_ok (applied : List String) :
    ∀ (files : List String) (st : BQState) (ran out : List String)
      (st' : BQState),
      runPendingLoop st applied files ran = (.ok out, st') →
      out = ran ++
        ((files.filter fun f => !applied.contains (parseName f)).map parseName)
        ∧
      st' = { st with upsRun := st.upsRun ++ files.filter (fun f => !applied.contains (parseName f)) }
  | [], st, ran, out, st', h => by
    simp only [runPendingLoop, Prod.mk.injEq, Except.ok.injEq] at h
    simp [← h.1, ← h.2]
  | file :: rest, st, ran, out, st', h => by
    simp only [runPendingLoop] at h
    by_cases hc : applied.contains (parseName file) = true
    · rw [if_pos hc] at h
      have hm : parseName file ∈ applied := by simpa using hc
      have ih := runPendingLoop_ok applied rest st ran out st' h
      refine ⟨?_, ?_⟩
      · rw [ih.1, List.filter_cons]
        simp [hm]
      · rw [ih.2, List.filter_cons]
        simp [hm]
    · rw [if_neg hc] at h
      have hm : parseName file ∉ applied := by simpa using hc
      rcases hres : runScriptUp st file with ⟨rr, st1⟩
      rw [hres] at h
      cases rr with
      | error e => simp at h
      | ok a =>
        simp only at h
        have hst1 := runScriptUp_ok_state st file a st1 hres
        subst hst1
        have ih := runPendingLoop_ok applied rest
          { st with upsRun := st.upsRun ++ [file] }
          (ran ++ [parseName file]) out st' h
        refine ⟨?_, ?_⟩
        · rw [ih.1, List.filter_cons]
          simp [hm]
        · rw [ih.2, List.filter_cons]
          simp [hm, List.append_assoc]

/-- Success of the rollback loop characterises the executed `down`s and the
collected stems: exactly the files whose stem is in `latest`, in order. -/
theorem rollbackLoop_ok (latest : List String) :
    ∀ (files : List String) (st : BQState) (rolled out : List String)
      (st' : BQState),
      rollbackLoop st latest files rolled = (.ok out, st') →
      out = rolled ++
        ((files.filter fun f => latest.contains (parseName f)).map parseName)
        ∧
      st' = { st with downsRun := st.downsRun ++ files.filter (fun f => latest.contains (parseName f)) }
  | [], st, rolled, out, st', h => by
    simp only [rollbackLoop, Prod.mk.injEq, Except.ok.injEq] at h
    simp [← h.1, ← h.2]
  | file :: rest, st, rolled, out, st', h => by
    simp only [rollbackLoop] at h
    by_cases hc : latest.contains (parseName file) = true
    · rw [if_pos hc] at h
      have hm : parseName file ∈ latest := by simpa using hc
      rcases hres : runScriptDown st file with ⟨rr, st1⟩
      rw [hres] at h
      cases rr with
      | error e => simp at h
      | ok a =>
        simp only at h
        have hst1 := runScriptDown_ok_state st file a st1 hres
        subst hst1
        have ih := rollbackLoop_ok latest rest
          { st with downsRun := st.downsRun ++ [file] }
          (rolled ++ [parseName file]) out st' h
        refine ⟨?_, ?_⟩
        · rw [ih.1, List.filter_cons]
          simp [hm]
        · rw [ih.2, List.filter_cons]
          simp [hm, List.append_assoc]
    · rw [if_neg hc] at h
      have hm : parseName file ∉ latest := by simpa using hc
      have ih := rollbackLoop_ok latest rest st rolled out st' h
      refine ⟨?_, ?_⟩
      · rw [ih.1, List.filter_cons]
        simp [hm]
      · rw [ih.2, List.filter_cons]
        simp [hm]

/-- The code-unit comparison is asymmetric. -/
theorem strLtChars_asymm : ∀ x y : List Char,
    strLtChars x y = true → strLtChars y x = false
  | [], [] => by simp [strLtChars]
  | [], _ :: _ => by simp [strLtChars]
  | _ :: _, [] => by simp [strLtChars]
  | a :: as, b :: bs => by
    simp only [strLtChars]
    intro h
    by_cases hab : a.toNat < b.toNat
    · have hba : ¬b.toNat < a.toNat := by omega
      simp [hab, hba]
    · by_cases hba : b.toNat < a.toNat
      · rw [if_neg hab, if_pos hba] at h
        exact absurd h (by simp)
      · rw [if_neg hab, if_neg hba] at h
        simp [hab, hba, strLtChars_asymm as bs h]

/-- The JS sort comparison is total. -/
theorem strLeJs_total (a b : String) :
    strLeJs a b = true ∨ strLeJs b a = true := by
  unfold strLeJs
  cases h : strLtChars b.data a.data
  · left; rfl
  · right
    rw [strLtChars_asymm _ _ h]
    rfl

/-- Inserting into an ascending list keeps it ascending. -/
theorem insertSorted_chain (f : String) :
    ∀ l, List.Chain' (fun a b => strLeJs a b = true) l →
      List.Chain' (fun a b => strLeJs a b = true) (insertSorted f l)
  | [], _ => by simp [insertSorted]
  | g :: rest, h => by
    unfold insertSorted
    by_cases hf : strLeJs f g = true
    · rw [if_pos hf]
      exact List.chain'_cons.mpr ⟨hf, h⟩
    · rw [if_neg hf]
      have hgf : strLeJs g f = true := by
        rcases strLeJs_total f g with h1 | h1
        · exact absurd h1 hf
        · exact h1
      have ih := insertSorted_chain f rest h.tail
      refine List.chain'_cons'.mpr ⟨?_, ih⟩
      intro b hb
      cases rest with
      | nil =>
        simp [insertSorted] at hb
        subst hb
        exact hgf
      | cons r0 rrest =>
        unfold insertSorted at hb
        by_cases h0 : strLeJs f r0 = true
        · rw [if_pos h0] at hb
          simp at hb
          subst hb
          exact hgf
        · rw [if_neg h0] at hb
          simp at hb
          subst hb
          exact (List.chain'_cons.mp h).1

/-- Insertion produces a permutation. -/
theorem insertSorted_perm (f : String) :
    ∀ l, (insertSorted f l).Perm (f :: l)
  | [] => by simp [insertSorted]
  | g :: rest => by
    unfold insertSorted
    by_cases hf : strLeJs f g = true
    · rw [if_pos hf]
    · rw [if_neg hf]
      exact ((insertSorted_perm f rest).cons g).trans (List.Perm.swap f g rest)

/-- The modelled JS sort produces an ascending list. -/
theorem sortJs_chain :
    ∀ l, List.Chain' (fun a b => strLeJs a b = true) (sortJs l)
  | [] => by simp [sortJs]
  | f :: rest => by
    unfold sortJs
    exact insertSorted_chain f (sortJs rest) (sortJs_chain rest)

/-- The modelled JS sort permutes its input. -/
theorem sortJs_perm : ∀ l, (sortJs l).Perm l
  | [] => by simp [sortJs]
  | f :: rest => by
    unfold sortJs
    exact (insertSorted_perm f (sortJs rest)).trans ((sortJs_perm rest).cons f)

/-- The filename pattern the claim states for `getMigrationFiles`:
`^\d{3}_.+\.(js|ts)$` — three digits, an underscore, a non-empty stem, a dot
and the extension.  On the remainder after `\d{3}_`, the `.+\.(js|ts)$` part
holds exactly when the remainder ends in `".js"` or `".ts"` and has at least
one further character before that suffix, i.e. length at least 4 (`.` is
modelled as matching any character; the filenames involved contain no line
terminators). -/
def specValidFilename (f : String) : Bool :=
  match f.data with
  | a :: b :: c :: u :: rest =>
    a.isDigit && b.isDigit && c.isDigit && (u == '_') &&
      decide (4 ≤ rest.length) &&
      (List.isSuffixOf ".js".data rest || List.isSuffixOf ".ts".data rest)
  | _ => false

/-- The relaxed pattern `^\d{3}_.*\.(js|ts)$` (stem may be empty): on the
remainder after `\d{3}_`, it holds exactly when the remainder ends in
`".js"` or `".ts"`. -/
def specValidFilenameLoose (f : String) : Bool :=
  match f.data with
  | a :: b :: c :: u :: rest =>
    a.isDigit && b.isDigit && c.isDigit && (u == '_') &&
      (List.isSuffixOf ".js".data rest || List.isSuffixOf ".ts".data rest)
  | _ => false

/-- A three-character suffix beginning with `'.'` sits past the
digit-digit-digit-underscore prefix: testing it against the whole filename
and against the remainder agree. -/
theorem isSuffixOf_past_ddu (p2 p3 : Char) (a b c u : Char)
    (rest : List Char) (ha : a.isDigit = true) (hb : b.isDigit = true)
    (hc : c.isDigit = true) (hu : u = '_') :
    List.isSuffixOf ['.', p2, p3] (a :: b :: c :: u :: rest) =
      List.isSuffixOf ['.', p2, p3] rest := by
  by_cases hr : List.isSuffixOf ['.', p2, p3] rest = true
  · rw [hr, List.isSuffixOf_iff_suffix]
    have hsfx : ['.', p2, p3] <:+ rest := List.isSuffixOf_iff_suffix.mp hr
    exact hsfx.trans ((List.suffix_cons u rest).trans
      ((List.suffix_cons c _).trans ((List.suffix_cons b _).trans
        (List.suffix_cons a _))))
  · have hr2 : List.isSuffixOf ['.', p2, p3] rest = false :=
      Bool.not_eq_true _ |>.mp hr
    rw [hr2, Bool.eq_false_iff]
    intro hw
    apply hr
    have hsfx : ['.', p2, p3] <:+ a :: b :: c :: u :: rest :=
      List.isSuffixOf_iff_suffix.mp hw
    rcases List.suffix_cons_iff.mp hsfx with heq | hsfx
    · simp at heq
    rcases List.suffix_cons_iff.mp hsfx with heq | hsfx
    · exfalso
      have hbdot : b = '.' := by
        have := congrArg (fun l => l.head?) heq
        simpa using this.symm
      rw [hbdot] at hb
      exact absurd hb (by decide)
    rcases List.suffix_cons_iff.mp hsfx with heq | hsfx
    · exfalso
      have hcdot : c = '.' := by
        have := congrArg (fun l => l.head?) heq
        simpa using this.symm
      rw [hcdot] at hc
      exact absurd hc (by decide)
    rcases List.suffix_cons_iff.mp hsfx with heq | hsfx
    · exfalso
      have hudot : u = '.' := by
        have := congrArg (fun l => l.head?) heq
        simpa using this.symm
      rw [hu] at hudot
      exact absurd hudot (by decide)
    exact List.isSuffixOf_iff_suffix.mpr hsfx

/-- The filter the code applies coincides with the relaxed pattern
`^\d{3}_.*\.(js|ts)$`: the only difference from the claimed pattern is that
the stem may be empty. -/
theorem isValid_eq_loose (f : String) :
    isValidMigrationFile f = specValidFilenameLoose f := by
  unfold isValidMigrationFile specValidFilenameLoose
    startsWithThreeDigitsUnderscore strEndsWith
  cases hd : f.data with
  | nil => simp
  | cons a t1 =>
    cases t1 with
    | nil => simp
    | cons b t2 =>
      cases t2 with
      | nil => simp
      | cons c t3 =>
        cases t3 with
        | nil => simp
        | cons u rest =>
          dsimp only
          by_cases hp : (a.isDigit && b.isDigit && c.isDigit && (u == '_'))
            = true
          · have hp2 := hp
            simp only [Bool.and_eq_true, beq_iff_eq] at hp2
            obtain ⟨⟨⟨ha, hb⟩, hc⟩, hu⟩ := hp2
            rw [hp]
            simp only [Bool.true_and]
            rw [isSuffixOf_past_ddu 'j' 's' a b c u rest ha hb hc hu,
              isSuffixOf_past_ddu 't' 's' a b c u rest ha hb hc hu]
          · have hp2 : (a.isDigit && b.isDigit && c.isDigit && (u == '_'))
              = false := Bool.not_eq_true _ |>.mp hp
            rw [hp2]
            simp

/-- The final state of `runMigrations`: the state after the try block with
the cleanup unlock UPDATE applied. -/
theorem runMigrations_snd (scope : List String) (cfg : Config)
    (st : BQState) :
    (runMigrations scope cfg st).2 =
      { (runMigrationsTry scope cfg st).2 with
        lockRows :=
          unlockRowsUpdate (runMigrationsTry scope cfg st).2.lockRows } :=
  rfl

/-- The result of `runMigrations` depends only on the cleanup unlock. -/
theorem runMigrations_fst (scope : List String) (cfg : Config)
    (st : BQState) :
    (runMigrations scope cfg st).1 =
      match (unlockMigration (runMigrationsTry scope cfg st).2).1 with
      | .error e => .error e
      | .ok _ => .ok () :=
  rfl

/-- The final state of `rollbackMigrations`: the state after the try block
with the cleanup unlock UPDATE applied. -/
theorem rollbackMigrations_snd (cfg : Config) (st : BQState) :
    (rollbackMigrations cfg st).2 =
      { (rollbackMigrationsTry cfg st).2 with
        lockRows :=
          unlockRowsUpdate (rollbackMigrationsTry cfg st).2.lockRows } :=
  rfl

/-- The result of `rollbackMigrations` depends only on the cleanup unlock. -/
theorem rollbackMigrations_fst (cfg : Config) (st : BQState) :
    (rollbackMigrations cfg st).1 =
      match (unlockMigration (rollbackMigrationsTry cfg st).2).1 with
      | .error e => .error e
      | .ok _ => .ok () :=
  rfl

/-- In the source scope, `createMigrationLockTable` throws before touching
anything (the bare `bigquery` of its first statement is unbound). -/
theorem createMigrationLockTable_src (st : BQState) :
    createMigrationLockTable srcScope st =
      (.error (.referenceError "bigquery"), st) :=
  rfl

/-- A state with both tables present, one unlocked lock row seeded at time
`0`, one pending catalog script and an empty ledger, at time `100`. -/
def stPending : BQState :=
  { ledgerTableExists := true, lockTableExists := true,
    ledger := [], lockRows := [⟨false, 0⟩],
    dirFiles := ["001_init.js"], scripts := [⟨"001_init.js", true, true⟩],
    now := 100, upsRun := [], downsRun := [] }

/-- Like `stPending` but the lock table holds no row at all, so every unlock
UPDATE reports zero affected rows. -/
def stNoLockRow : BQState := { stPending with lockRows := [] }

/-- Like `stPending` but the lock row is held by another (unexpired) run:
locked at time `90`, 10 seconds before `now`. -/
def stHeldLock : BQState :=
  { stPending with
    lockRows := [⟨true, 90⟩]
    ledger := [⟨"001_init", 1, 5⟩] }

/-- Like `stPending` but the lock row is locked (stale bookkeeping): the
cleanup unlock succeeds. -/
def stLockedRow : BQState := { stPending with lockRows := [⟨true, 0⟩] }

/-- Like `stPending` but the lock row was locked at time `50`, more than the
30-second expiry before `now = 100`. -/
def stExpiredLock : BQState := { stPending with lockRows := [⟨true, 50⟩] }

/-- A directory whose only entry has an empty stem between the underscore
and the extension. -/
def stDirOnly : BQState := { stPending with dirFiles := ["001_.js"] }

/-- An empty migration directory. -/
def stEmptyDir : BQState := { stPending with dirFiles := [] }

/-- One applied script (batch 1) and one pending script. -/
def stEight : BQState :=
  { stPending with
    ledger := [⟨"001_init", 1, 5⟩]
    dirFiles := ["001_init.js", "002_person.js"]
    scripts := [⟨"001_init.js", true, true⟩, ⟨"002_person.js", true, true⟩] }

/-- Two batches in the ledger: batch 1 = 001_init, batch 2 = 002_person and
003_email; all three scripts in the catalog. -/
def stRollback : BQState :=
  { ledgerTableExists := true, lockTableExists := true,
    ledger := [⟨"001_init", 1, 5⟩, ⟨"002_person", 2, 6⟩, ⟨"003_email", 2, 7⟩],
    lockRows := [⟨false, 0⟩],
    dirFiles := ["001_init.js", "002_person.js", "003_email.ts"],
    scripts := [⟨"001_init.js", true, true⟩, ⟨"002_person.js", true, true⟩,
      ⟨"003_email.ts", true, true⟩],
    now := 100, upsRun := [], downsRun := [] }

/-- C4: every invocation of `createMigrationLockTable` fails with a
reference error before creating or seeding anything: its existence check
dereferences the unbound identifier `bigquery` instead of `this.bigquery`,
so regardless of configuration or prior state the call rejects with
`ReferenceError` and returns the state unchanged — the lock table is never
created nor its single unlocked row seeded through this public operation. -/
theorem C4_createMigrationLockTable_always_referenceError (st : BQState) :
    createMigrationLockTable srcScope st =
      (.error (.referenceError "bigquery"), st) :=
  rfl

/-- C1 counterexample: with no row in the lock table, both `runMigrations`
and `rollbackMigrations` reject: the cleanup `unlockMigration` in the
`finally` block reports zero affected rows, throws, and that lock-release
failure is neither caught nor logged — the caller observes it as a
rejection, contradicting the claim that the returned promise always
resolves. -/
theorem C1_counterexample :
    (runMigrations srcScope cfgEx stNoLockRow).1 = .error .unlockFailed ∧
    (rollbackMigrations cfgEx stNoLockRow).1 = .error .unlockFailed ∧
    (runMigrations srcScope cfgEx stNoLockRow).1 ≠ .ok () := by
  decide

/-- C1 amended: errors raised inside the `try` block of `runMigrations` and
`rollbackMigrations` (table-ensure, lock-acquisition, script-execution and
bookkeeping failures) are caught and logged and never surface to the caller;
but the cleanup unlock is unguarded, so the returned promise either resolves
or rejects with the lock-release error — no other rejection is possible. -/
theorem C1_amended_only_lock_release_rejects (scope : List String)
    (cfg : Config) (st : BQState) :
    ((runMigrations scope cfg st).1 = .ok () ∨
      (runMigrations scope cfg st).1 = .error .unlockFailed) ∧
    ((rollbackMigrations cfg st).1 = .ok () ∨
      (rollbackMigrations cfg st).1 = .error .unlockFailed) := by
  constructor
  · rw [runMigrations_fst]
    rcases unlockMigration_cases (runMigrationsTry scope cfg st).2 with h | h
      <;> rw [h] <;> simp
  · rw [rollbackMigrations_fst]
    rcases unlockMigration_cases (rollbackMigrationsTry cfg st).2 with h | h
      <;> rw [h] <;> simp

/-- C7 counterexample: ensuring the lock table fails during `runMigrations`
(in the source scope its very first statement throws `ReferenceError`), yet
the failure does not propagate to the caller: the catch block swallows it
and, the cleanup unlock succeeding here, the call resolves — contradicting
the claim that ensure-table failures propagate uncaught. -/
theorem C7_counterexample :
    (runMigrationsTry srcScope cfgEx stLockedRow).1 =
      .error (.referenceError "bigquery") ∧
    (runMigrations srcScope cfgEx stLockedRow).1 = .ok () := by
  decide

/-- C2, evaluated on the code as written: with one pending script and an
empty ledger, the try block of `runMigrations` rejects with `ReferenceError`
(unbound `bigquery` in the ensure-lock-table step) before any script runs,
the ledger receives no row, and even the recording step itself — invoked
directly with one executed name — rejects with the same `ReferenceError`
because its MAX(batch) query also dereferences the unbound `bigquery`, so
the claimed bulk INSERT can never happen. -/
theorem C2_run_bookkeeping_unreachable :
    (runMigrationsTry srcScope cfgEx stPending).1 =
      .error (.referenceError "bigquery") ∧
    (runMigrations srcScope cfgEx stPending).2.ledger = stPending.ledger ∧
    (runMigrations srcScope cfgEx stPending).2.upsRun = [] ∧
    recordRanMigrations srcScope stPending ["001_init"] =
      (.error (.referenceError "bigquery"), stPending) := by
  decide

/-- C8, evaluated on the code as written: `002_person` is pending (its stem
is absent from the applied names), yet `runMigrations` executes no script at
all — the run rejects into the catch with `ReferenceError` in the
ensure-lock-table step, before the diff/execution loop is ever reached. -/
theorem C8_no_pending_script_executes :
    pendingFilesOf stEight = ["002_person.js"] ∧
    (runMigrationsTry srcScope cfgEx stEight).1 =
      .error (.referenceError "bigquery") ∧
    (runMigrations srcScope cfgEx stEight).2.upsRun = [] := by
  decide

/-- C9 counterexample: the directory entry `001_.js` (empty stem) is
returned by `getMigrationFiles`, but the claimed pattern
`^\d{3}_.+\.(js|ts)$` rejects it — the code only tests the `^\d{3}_` prefix
and the `.js`/`.ts` suffix and does not require a non-empty stem. -/
theorem C9_counterexample :
    (getMigrationFiles stDirOnly).1 = .ok ["001_.js"] ∧
    specValidFilename "001_.js" = false := by
  decide

/-- C5: `lockMigration` issues a single conditional UPDATE that sets the
lock row to locked at the current timestamp wherever the row is unlocked or
its lock age in seconds is at least the configured expiry; it fails with the
lock-acquisition error exactly when the reported affected-row count is zero;
and against a single row locked at least the expiry ago, the acquire
succeeds and overwrites the lock. -/
theorem C5_lockMigration_conditional_update (cfg : Config) (st : BQState) :
    ((lockMigration cfg st).1 = .error .lockFailed ↔
      lockAffectedRows cfg st = 0) ∧
    (∀ r : LockRow, lockRowMatches cfg st.now r = true ↔
      (r.is_locked = false ∨
        cfg.migrationLockExpirationTime ≤ st.now - r.locked_at)) ∧
    (∀ r : LockRow, st.lockRows = [r] → r.is_locked = true →
      cfg.migrationLockExpirationTime ≤ st.now - r.locked_at →
      (lockMigration cfg st).1 = .ok () ∧
      (lockMigration cfg st).2.lockRows = [⟨true, st.now⟩]) := by
  refine ⟨?_, ?_, ?_⟩
  · rw [lockMigration_fst]
    by_cases hz : lockAffectedRows cfg st = 0 <;> simp [hz]
  · intro r
    unfold lockRowMatches
    cases hr : r.is_locked <;> simp [hr]
  · intro r h1 h2 h3
    have hm : lockRowMatches cfg st.now r = true := by
      unfold lockRowMatches
      rw [h2]
      simp [h3]
    have haff : lockAffectedRows cfg st = 1 := by
      unfold lockAffectedRows
      rw [h1]
      simp [hm]
    constructor
    · rw [lockMigration_fst, haff]
      simp
    · rw [lockMigration_snd]
      simp only
      rw [h1]
      simp [hm]

/-- C5 witness: at `stExpiredLock` the single row has been locked for 50
seconds against a 30-second expiry; the acquire succeeds and overwrites the
row with `is_locked = true, locked_at = now`. -/
theorem C5_witness :
    (lockMigration cfgEx stExpiredLock).1 = .ok () ∧
    (lockMigration cfgEx stExpiredLock).2.lockRows = [⟨true, 100⟩] :=
  (C5_lockMigration_conditional_update cfgEx stExpiredLock).2.2
    ⟨true, 50⟩ rfl rfl (by decide)

/-- C10: two acquire attempts against a single unlocked lock row at the same
timestamp — serialised in either order by the warehouse, which executes each
conditional UPDATE atomically — cannot both succeed: the first observes one
affected row and acquires the lock, the second observes zero affected rows
and fails with the lock-acquisition error (the row it sees is locked with
age 0, below any positive expiry). -/
theorem C10_lock_mutual_exclusion (cfg : Config) (st : BQState)
    (r : LockRow) (he : 0 < cfg.migrationLockExpirationTime)
    (h1 : st.lockRows = [r]) (h2 : r.is_locked = false) :
    (lockMigration cfg st).1 = .ok () ∧
    lockAffectedRows cfg st = 1 ∧
    (lockMigration cfg (lockMigration cfg st).2).1 = .error .lockFailed ∧
    lockAffectedRows cfg (lockMigration cfg st).2 = 0 := by
  have hm : lockRowMatches cfg st.now r = true := by
    unfold lockRowMatches
    rw [h2]
    simp
  have haff : lockAffectedRows cfg st = 1 := by
    unfold lockAffectedRows
    rw [h1]
    simp [hm]
  have hrows2 : (lockMigration cfg st).2.lockRows = [⟨true, st.now⟩] := by
    rw [lockMigration_snd]
    simp only
    rw [h1]
    simp [hm]
  have hnow2 : (lockMigration cfg st).2.now = st.now := by
    rw [lockMigration_snd]
  have hm2 : lockRowMatches cfg st.now ⟨true, st.now⟩ = false := by
    unfold lockRowMatches
    simp only [Bool.not_true, Bool.false_or]
    rw [sub_self]
    simp only [decide_eq_false_iff_not, not_le]
    exact he
  have haff2 : lockAffectedRows cfg (lockMigration cfg st).2 = 0 := by
    unfold lockAffectedRows
    rw [hrows2, hnow2]
    simp [hm2]
  refine ⟨?_, haff, ?_, haff2⟩
  · rw [lockMigration_fst, haff]
    simp
  · rw [lockMigration_fst, haff2]
    simp

/-- C10 witness: at `stPending` (one unlocked row, 30-second expiry) the
first acquire succeeds with one affected row and the immediately following
acquire at the same timestamp fails with zero affected rows. -/
theorem C10_witness :
    (0 : Int) < cfgEx.migrationLockExpirationTime ∧
    ((lockMigration cfgEx stPending).1 = .ok () ∧
      lockAffectedRows cfgEx stPending = 1 ∧
      (lockMigration cfgEx (lockMigration cfgEx stPending).2).1 =
        .error .lockFailed ∧
      lockAffectedRows cfgEx (lockMigration cfgEx stPending).2 = 0) :=
  ⟨by decide,
    C10_lock_mutual_exclusion cfgEx stPending ⟨false, 0⟩ (by decide) rfl rfl⟩

/-- C6 counterexample: with the lock row held (unexpired) by another run,
`rollbackMigrations` fails to acquire the lock — yet the invocation still
writes the lock table afterwards: the cleanup unlock UPDATE releases the
other holder's lock, contradicting the claim that after a lock-acquisition
failure no subsequent write of the lock table is performed. -/
theorem C6_counterexample :
    (rollbackMigrationsTry cfgEx stHeldLock).1 = .error .lockFailed ∧
    (rollbackMigrations cfgEx stHeldLock).1 = .ok () ∧
    (rollbackMigrations cfgEx stHeldLock).2.lockRows ≠ stHeldLock.lockRows ∧
    (rollbackMigrations cfgEx stHeldLock).2.lockRows = [⟨false, 90⟩] := by
  decide

/-- C6 amended: if lock acquisition fails inside `rollbackMigrations`, no
catalog script executes and the ledger is untouched — the run reads or
writes nothing further of the catalog or ledger — but the cleanup step still
issues the unconditional unlock UPDATE against the lock table (releasing
even a lock the invocation never held). -/
theorem C6_amended_abort_still_unlocks (cfg : Config) (st : BQState)
    (h : (lockMigration cfg st).1 = .error .lockFailed) :
    (rollbackMigrations cfg st).2.ledger = st.ledger ∧
    (rollbackMigrations cfg st).2.downsRun = st.downsRun ∧
    (rollbackMigrations cfg st).2.upsRun = st.upsRun ∧
    (rollbackMigrations cfg st).2.dirFiles = st.dirFiles ∧
    (rollbackMigrations cfg st).2.lockRows = unlockRowsUpdate st.lockRows := by
  have h0 : lockAffectedRows cfg st = 0 := by
    rw [lockMigration_fst] at h
    by_cases hz : lockAffectedRows cfg st = 0
    · exact hz
    · rw [if_neg hz] at h
      exact absurd h (by simp)
  have hlock := lockMigration_fail_state cfg st h0
  have htry : rollbackMigrationsTry cfg st = (.error .lockFailed, st) := by
    unfold rollbackMigrationsTry
    rw [hlock]
    rfl
  rw [rollbackMigrations_snd, htry]
  exact ⟨rfl, rfl, rfl, rfl, rfl⟩

/-- C6 witness: at `stHeldLock` lock acquisition fails, and the amended
conclusions hold there. -/
theorem C6_witness :
    (lockMigration cfgEx stHeldLock).1 = .error .lockFailed ∧
    ((rollbackMigrations cfgEx stHeldLock).2.ledger = stHeldLock.ledger ∧
      (rollbackMigrations cfgEx stHeldLock).2.downsRun =
        stHeldLock.downsRun ∧
      (rollbackMigrations cfgEx stHeldLock).2.upsRun = stHeldLock.upsRun ∧
      (rollbackMigrations cfgEx stHeldLock).2.dirFiles =
        stHeldLock.dirFiles ∧
      (rollbackMigrations cfgEx stHeldLock).2.lockRows =
        unlockRowsUpdate stHeldLock.lockRows) :=
  ⟨by decide, C6_amended_abort_still_unlocks cfgEx stHeldLock (by decide)⟩

/-- C7 amended: failures while ensuring the tables during `runMigrations` do
not propagate to the caller — in the source scope the ensure-lock-table step
always fails with `ReferenceError`, the catch block swallows it, and the
caller sees rejection only if the cleanup unlock itself fails.  The run does
abort before any lock-acquisition attempt: no script runs, the ledger is
untouched, and the lock table only receives the cleanup unlock UPDATE. -/
theorem C7_amended_ensure_failure_is_caught (cfg : Config) (st : BQState) :
    (runMigrationsTry srcScope cfg st).1 =
      .error (.referenceError "bigquery") ∧
    ((runMigrations srcScope cfg st).1 = .ok () ∨
      (runMigrations srcScope cfg st).1 = .error .unlockFailed) ∧
    (runMigrations srcScope cfg st).2.upsRun = st.upsRun ∧
    (runMigrations srcScope cfg st).2.ledger = st.ledger ∧
    (runMigrations srcScope cfg st).2.lockRows =
      unlockRowsUpdate st.lockRows := by
  have htry : runMigrationsTry srcScope cfg st =
      (.error (.referenceError "bigquery"),
        if st.ledgerTableExists then st
        else { st with ledgerTableExists := true }) := by
    unfold runMigrationsTry createMigrationTable
    by_cases hl : st.ledgerTableExists <;>
      simp [hl, andThen, createMigrationLockTable_src]
  refine ⟨by rw [htry], ?_, ?_, ?_, ?_⟩
  · rw [runMigrations_fst]
    rcases unlockMigration_cases (runMigrationsTry srcScope cfg st).2
      with h | h <;> rw [h] <;> simp
  · rw [runMigrations_snd, htry]
    by_cases hl : st.ledgerTableExists <;> simp [hl]
  · rw [runMigrations_snd, htry]
    by_cases hl : st.ledgerTableExists <;> simp [hl]
  · rw [runMigrations_snd, htry]
    by_cases hl : st.ledgerTableExists <;> simp [hl]

/-- C9 amended: `getMigrationFiles` returns exactly the directory entries
with a three-digit-and-underscore prefix and a `.js`/`.ts` suffix — the
pattern `^\d{3}_.*\.(js|ts)$`, whose stem may be empty — sorted lexically
ascending on the full filename, and an empty sequence (not a failure) when
no entry matches. -/
theorem C9_amended_getMigrationFiles (st : BQState) :
    getMigrationFiles st =
      (.ok (sortJs (st.dirFiles.filter isValidMigrationFile)), st) ∧
    (sortJs (st.dirFiles.filter isValidMigrationFile)).Perm
      (st.dirFiles.filter isValidMigrationFile) ∧
    List.Chain' (fun a b => strLeJs a b = true)
      (sortJs (st.dirFiles.filter isValidMigrationFile)) ∧
    (∀ f, isValidMigrationFile f = specValidFilenameLoose f) ∧
    (st.dirFiles.filter isValidMigrationFile = [] →
      getMigrationFiles st = (.ok [], st)) :=
  ⟨rfl, sortJs_perm _, sortJs_chain _, isValid_eq_loose,
    fun h => by unfold getMigrationFiles; rw [h]; rfl⟩

/-- C9 witness: an empty directory yields the empty sequence. -/
theorem C9_witness :
    stEmptyDir.dirFiles.filter isValidMigrationFile = [] ∧
    getMigrationFiles stEmptyDir = (.ok [], stEmptyDir) :=
  ⟨rfl, (C9_amended_getMigrationFiles stEmptyDir).2.2.2.2 rfl⟩

/-- On success, the try block of `rollbackMigrations` executed the `down` of
exactly the rollback targets, in catalog order, and deleted exactly the
ledger rows whose name is among the executed stems and whose batch is the
current batch. -/
theorem rollbackTry_ok (cfg : Config) (st : BQState)
    (h : (rollbackMigrationsTry cfg st).1 = .ok ()) :
    (rollbackMigrationsTry cfg st).2.downsRun =
      st.downsRun ++ rollbackTargets st ∧
    (rollbackMigrationsTry cfg st).2.ledger =
      st.ledger.filter (fun r =>
        !(((rollbackTargets st).map parseName).contains r.name &&
          r.batch == currentBatchOf st)) ∧
    (rollbackMigrationsTry cfg st).2.upsRun = st.upsRun := by
  by_cases hz : lockAffectedRows cfg st = 0
  · exfalso
    have hfail : rollbackMigrationsTry cfg st = (.error .lockFailed, st) := by
      unfold rollbackMigrationsTry
      rw [lockMigration_fail_state cfg st hz]
      rfl
    rw [hfail] at h
    exact absurd h (by simp)
  · have hfst : (lockMigration cfg st).1 = .ok () := by
      rw [lockMigration_fst]
      simp [hz]
    have hlm : lockMigration cfg st =
        (.ok (), { st with lockRows := st.lockRows.map (fun r =>
          if lockRowMatches cfg st.now r then ⟨true, st.now⟩ else r) }) := by
      calc lockMigration cfg st
          = ((lockMigration cfg st).1, (lockMigration cfg st).2) := rfl
        _ = _ := by rw [hfst, lockMigration_snd]
    have e3 : rollbackMigrationsTry cfg st =
        andThen (rollbackLoop
          { st with lockRows := st.lockRows.map (fun r =>
              if lockRowMatches cfg st.now r then ⟨true, st.now⟩ else r) }
          (latestBatchNames st) (sortedMigrationFiles st) [])
          (fun rolled st4 => deleteRolledBack st4 rolled
            (currentBatchOf st)) := by
      unfold rollbackMigrationsTry
      rw [hlm]
      rfl
    rcases hloop : rollbackLoop
      { st with lockRows := st.lockRows.map (fun r =>
          if lockRowMatches cfg st.now r then ⟨true, st.now⟩ else r) }
      (latestBatchNames st) (sortedMigrationFiles st) []
      with ⟨r2, st4⟩
    rw [hloop] at e3
    cases r2 with
    | error e =>
      exfalso
      rw [e3] at h
      exact absurd h (by simp [andThen])
    | ok rolled =>
      have e4 : rollbackMigrationsTry cfg st =
          deleteRolledBack st4 rolled (currentBatchOf st) := by
        rw [e3]
        rfl
      have hchar := rollbackLoop_ok (latestBatchNames st)
        (sortedMigrationFiles st)
        { st with lockRows := st.lockRows.map (fun r =>
            if lockRowMatches cfg st.now r then ⟨true, st.now⟩ else r) }
        [] rolled st4 hloop
      have hrolled : rolled = (rollbackTargets st).map parseName := by
        rw [hchar.1]
        simp [rollbackTargets]
      have hst4 : st4 = { st with
          lockRows := st.lockRows.map (fun r =>
            if lockRowMatches cfg st.now r then ⟨true, st.now⟩ else r)
          downsRun := st.downsRun ++ rollbackTargets st } := by
        rw [hchar.2]
        simp [rollbackTargets]
      subst hst4
      rw [e4]
      unfold deleteRolledBack
      by_cases hz2 : rolled.length = 0
      · rw [if_pos hz2]
        have hnil : (rollbackTargets st).map parseName = [] := by
          rw [← hrolled]
          exact List.length_eq_zero.mp hz2
        dsimp only
        refine ⟨rfl, ?_, rfl⟩
        rw [(List.filter_eq_self).mpr]
        intro r _
        rw [hnil]
        simp
      · rw [if_neg hz2]
        dsimp only
        refine ⟨rfl, ?_, rfl⟩
        rw [hrolled]

/-- C3: on a successful pass, `rollbackMigrations` runs the `down` of
exactly those catalog scripts whose stem appears in the ledger under the
current (maximum) batch, in ascending filename order (the catalog order, not
reversed), then deletes exactly the ledger rows matching both the executed
stems and the current batch number; rows of other batches survive. -/
theorem C3_rollback_latest_batch (cfg : Config) (st : BQState)
    (h : (rollbackMigrationsTry cfg st).1 = .ok ()) :
    (rollbackMigrations cfg st).2.downsRun =
      st.downsRun ++ rollbackTargets st ∧
    (rollbackMigrations cfg st).2.ledger =
      st.ledger.filter (fun r =>
        !(((rollbackTargets st).map parseName).contains r.name &&
          r.batch == currentBatchOf st)) ∧
    (rollbackMigrations cfg st).2.upsRun = st.upsRun ∧
    (∀ r ∈ st.ledger, r.batch ≠ currentBatchOf st →
      r ∈ (rollbackMigrations cfg st).2.ledger) := by
  have hk := rollbackTry_ok cfg st h
  have hdowns : (rollbackMigrations cfg st).2.downsRun =
      (rollbackMigrationsTry cfg st).2.downsRun := by
    rw [rollbackMigrations_snd]
  have hledger : (rollbackMigrations cfg st).2.ledger =
      (rollbackMigrationsTry cfg st).2.ledger := by
    rw [rollbackMigrations_snd]
  have hups : (rollbackMigrations cfg st).2.upsRun =
      (rollbackMigrationsTry cfg st).2.upsRun := by
    rw [rollbackMigrations_snd]
  refine ⟨by rw [hdowns, hk.1], by rw [hledger, hk.2.1], by rw [hups, hk.2.2],
    ?_⟩
  intro r hr hb
  rw [hledger, hk.2.1]
  rw [List.mem_filter]
  refine ⟨hr, ?_⟩
  have : (r.batch == currentBatchOf st) = false := by
    simpa using hb
  simp [this]

/-- C3 witness: rolling back `stRollback` (current batch 2) executes the
`down` of `002_person.js` and `003_email.ts` in ascending filename order and
deletes exactly the two batch-2 rows, leaving the batch-1 row. -/
theorem C3_witness :
    (rollbackMigrationsTry cfgEx stRollback).1 = .ok () ∧
    ((rollbackMigrations cfgEx stRollback).2.downsRun =
        stRollback.downsRun ++ rollbackTargets stRollback ∧
      (rollbackMigrations cfgEx stRollback).2.ledger =
        stRollback.ledger.filter (fun r =>
          !(((rollbackTargets stRollback).map parseName).contains r.name &&
            r.batch == currentBatchOf stRollback)) ∧
      (rollbackMigrations cfgEx stRollback).2.upsRun =
        stRollback.upsRun ∧
      (∀ r ∈ stRollback.ledger, r.batch ≠ currentBatchOf stRollback →
        r ∈ (rollbackMigrations cfgEx stRollback).2.ledger)) :=
  ⟨by decide,
    C3_rollback_latest_batch cfgEx stRollback (by decide)⟩

/-- With the unbound `bigquery` references repaired (the patched scope, i.e.
reading `this.bigquery`), a successful locked phase of the run executes
exactly the pending scripts' `up`s in catalog order and bulk-inserts one
ledger row per executed stem, all stamped with the prior maximum batch plus
one and the current timestamp — the behaviour the surrounding code and its
documentation intend. -/
theorem runLockedPhase_patched_ok (cfg : Config) (st : BQState)
    (h : (runLockedPhase patchedScope cfg st).1 = .ok ()) :
    (runLockedPhase patchedScope cfg st).2.upsRun =
      st.upsRun ++ pendingFilesOf st ∧
    (runLockedPhase patchedScope cfg st).2.ledger =
      st.ledger ++ (pendingFilesOf st).map
        (fun f => ⟨parseName f, currentBatchOf st + 1, st.now⟩) := by
  by_cases hz : lockAffectedRows cfg st = 0
  · exfalso
    have hfail : runLockedPhase patchedScope cfg st =
        (.error .lockFailed, st) := by
      unfold runLockedPhase
      rw [lockMigration_fail_state cfg st hz]
      rfl
    rw [hfail] at h
    exact absurd h (by simp)
  · have hfst : (lockMigration cfg st).1 = .ok () := by
      rw [lockMigration_fst]
      simp [hz]
    have hlm : lockMigration cfg st =
        (.ok (), { st with lockRows := st.lockRows.map (fun r =>
          if lockRowMatches cfg st.now r then ⟨true, st.now⟩ else r) }) := by
      calc lockMigration cfg st
          = ((lockMigration cfg st).1, (lockMigration cfg st).2) := rfl
        _ = _ := by rw [hfst, lockMigration_snd]
    have e3 : runLockedPhase patchedScope cfg st =
        andThen (runPendingLoop
          { st with lockRows := st.lockRows.map (fun r =>
              if lockRowMatches cfg st.now r then ⟨true, st.now⟩ else r) }
          (appliedNamesOf st) (sortedMigrationFiles st) [])
          (fun ran st6 => recordRanMigrations patchedScope st6 ran) := by
      unfold runLockedPhase
      rw [hlm]
      rfl
    rcases hloop : runPendingLoop
      { st with lockRows := st.lockRows.map (fun r =>
          if lockRowMatches cfg st.now r then ⟨true, st.now⟩ else r) }
      (appliedNamesOf st) (sortedMigrationFiles st) []
      with ⟨r2, st6⟩
    rw [hloop] at e3
    cases r2 with
    | error e =>
      exfalso
      rw [e3] at h
      exact absurd h (by simp [andThen])
    | ok ran =>
      have e4 : runLockedPhase patchedScope cfg st =
          recordRanMigrations patchedScope st6 ran := by
        rw [e3]
        rfl
      have hchar := runPendingLoop_ok (appliedNamesOf st)
        (sortedMigrationFiles st)
        { st with lockRows := st.lockRows.map (fun r =>
            if lockRowMatches cfg st.now r then ⟨true, st.now⟩ else r) }
        [] ran st6 hloop
      have hran : ran = (pendingFilesOf st).map parseName := by
        rw [hchar.1]
        simp [pendingFilesOf]
      have hst6 : st6 = { st with
          lockRows := st.lockRows.map (fun r =>
            if lockRowMatches cfg st.now r then ⟨true, st.now⟩ else r)
          upsRun := st.upsRun ++ pendingFilesOf st } := by
        rw [hchar.2]
        rfl
      subst hst6
      rw [e4]
      unfold recordRanMigrations
      by_cases hz2 : ran.length = 0
      · rw [if_pos hz2]
        have hnil : pendingFilesOf st = [] := by
          have hm : (pendingFilesOf st).map parseName = [] := by
            rw [← hran]
            exact List.length_eq_zero.mp hz2
          exact List.map_eq_nil_iff.mp hm
        dsimp only
        constructor
        · rfl
        · rw [hnil]
          simp
      · rw [if_neg hz2]
        have hlook : lookupBinding patchedScope "bigquery" = .ok () := rfl
        rw [hlook]
        dsimp only
        constructor
        · rfl
        · rw [hran, List.map_map]
          rfl

/-- With the unbound `bigquery` references repaired, a successful try block
of `runMigrations` leaves the intended traces: exactly the pending scripts
executed, and the ledger extended by one row per executed stem, all stamped
with the same new batch number and timestamp (C2 and C8 describe this
intended behaviour; the committed code cannot reach it). -/
theorem runMigrations_intended_effects (cfg : Config) (st : BQState)
    (h : (runMigrationsTry patchedScope cfg st).1 = .ok ()) :
    (runMigrations patchedScope cfg st).2.upsRun =
      st.upsRun ++ pendingFilesOf st ∧
    (runMigrations patchedScope cfg st).2.ledger =
      st.ledger ++ (pendingFilesOf st).map
        (fun f => ⟨parseName f, currentBatchOf st + 1, st.now⟩) := by
  have hups : (runMigrations patchedScope cfg st).2.upsRun =
      (runMigrationsTry patchedScope cfg st).2.upsRun := by
    rw [runMigrations_snd]
  have hled : (runMigrations patchedScope cfg st).2.ledger =
      (runMigrationsTry patchedScope cfg st).2.ledger := by
    rw [runMigrations_snd]
  have hbq : lookupBinding patchedScope "bigquery" = .ok () := rfl
  by_cases h1 : st.ledgerTableExists <;> by_cases h2 : st.lockTableExists
  · have e : runMigrationsTry patchedScope cfg st =
        runLockedPhase patchedScope cfg st := by
      unfold runMigrationsTry createMigrationTable createMigrationLockTable
      simp [h1, h2, andThen, hbq]
    rw [e] at h
    have hp := runLockedPhase_patched_ok cfg st h
    rw [hups, hled, e]
    exact ⟨hp.1, hp.2⟩
  · have e : runMigrationsTry patchedScope cfg st =
        runLockedPhase patchedScope cfg
          { st with
            lockTableExists := true
            lockRows := st.lockRows ++ [⟨false, st.now⟩] } := by
      unfold runMigrationsTry createMigrationTable createMigrationLockTable
      simp [h1, h2, andThen, hbq]
    rw [e] at h
    have hp := runLockedPhase_patched_ok cfg
      { st with
        lockTableExists := true
        lockRows := st.lockRows ++ [⟨false, st.now⟩] } h
    rw [hups, hled, e]
    exact ⟨hp.1, hp.2⟩
  · have e : runMigrationsTry patchedScope cfg st =
        runLockedPhase patchedScope cfg
          { st with ledgerTableExists := true } := by
      unfold runMigrationsTry createMigrationTable createMigrationLockTable
      simp [h1, h2, andThen, hbq]
    rw [e] at h
    have hp := runLockedPhase_patched_ok cfg
      { st with ledgerTableExists := true } h
    rw [hups, hled, e]
    exact ⟨hp.1, hp.2⟩
  · have e : runMigrationsTry patchedScope cfg st =
        runLockedPhase patchedScope cfg
          { st with
            ledgerTableExists := true
            lockTableExists := true
            lockRows := st.lockRows ++ [⟨false, st.now⟩] } := by
      unfold runMigrationsTry createMigrationTable createMigrationLockTable
      simp [h1, h2, andThen, hbq]
    rw [e] at h
    have hp := runLockedPhase_patched_ok cfg
      { st with
        ledgerTableExists := true
        lockTableExists := true
        lockRows := st.lockRows ++ [⟨false, st.now⟩] } h
    rw [hups, hled, e]
    exact ⟨hp.1, hp.2⟩

end BQMigrate
